import Mathlib

/-
Verification of the seavan crate.

This file gives a shallow embedding of the crate's three source files
(src/lib.rs, src/utils.rs, src/error.rs) and proves the specification's
claims about it.

Modelling conventions:
  - Rust strings are Lean `String`s; byte buffers (file contents, captured
    subprocess streams) are `List Nat` with every element a byte value.
  - Machine integers in the hash are `Nat` reduced modulo 2 ^ 32 where the
    Rust code would wrap.
  - Filesystem and subprocess effects are out of the model: a path is
    represented by the results of the accessors the code calls on it
    (file_name, parent, the file's bytes), and the docker subprocess by the
    triple (exit status success, stdout bytes, stderr bytes) that
    `Command::output()` hands back.
  - Fallible Rust functions returning `Result<T, SeavanError>` become
    `Except SeavanError T`.
-/

/-! ## src/utils.rs : docker_safe_string -/

/-- A character inside the character class of the pattern
`([^a-z0-9-_]+)` in docker_safe_string: ASCII lowercase letters, ASCII
digits, hyphen (code 45) and underscore (code 95). -/
def allowedChar (c : Char) : Bool :=
  (97 ≤ c.toNat && c.toNat ≤ 122) || (48 ≤ c.toNat && c.toNat ≤ 57)
    || c.toNat == 45 || c.toNat == 95

/-- Body of the replacement closure in docker_safe_string, applied to each
character of a matched run: the arm `'A'..='Z' => c.to_ascii_lowercase()`
adds 32 to an ASCII uppercase letter, and the catch-all arm produces `'-'`. -/
def badMap (c : Char) : Char :=
  if 65 ≤ c.toNat && c.toNat ≤ 90 then Char.ofNat (c.toNat + 32) else '-'

/-- The `Regex::replace_all` traversal of docker_safe_string: the pattern
`([^a-z0-9-_]+)` matches each maximal run of disallowed characters, and the
closure rebuilds the matched run by mapping `badMap` over its characters
(`cap.chars().map(..)`). The first argument carries the current run in
reverse; characters outside any run are copied through. -/
def replaceRuns : List Char → List Char → List Char
  | run, [] => run.reverse.map badMap
  | run, c :: cs =>
    if allowedChar c then run.reverse.map badMap ++ c :: replaceRuns [] cs
    else replaceRuns (c :: run) cs

/-- `docker_safe_string` from src/utils.rs. In Rust it returns
`Result<Cow<str>, SeavanError>` only because `Regex::new` on the fixed
pattern `([^a-z0-9-_]+)` could in principle fail to compile; that pattern
is a valid regex, so the function never returns the `RegexError` case and
the embedding is total. -/
def docker_safe_string (s : String) : String := ⟨replaceRuns [] s.data⟩

/-- Per-character form of the replacement: kept if allowed, run-mapped
otherwise. Because the closure in docker_safe_string transforms each
character of a matched run independently, the whole traversal is this map
(proved below in `replaceRuns_eq_map`). -/
def sanitizeChar (c : Char) : Char := if allowedChar c then c else badMap c

/-! ## Sanitizer lemmas -/

theorem replaceRuns_eq_map (l : List Char) :
    ∀ run, replaceRuns run l =
      run.reverse.map badMap ++ l.map sanitizeChar := by
  induction l with
  | nil => intro run; simp [replaceRuns]
  | cons c cs ih =>
    intro run
    by_cases h : allowedChar c
    · simp [replaceRuns, h, ih [], sanitizeChar]
    · simp [replaceRuns, h, ih (c :: run), sanitizeChar]

/-- The sanitizer maps `sanitizeChar` over the characters of its input. -/
theorem docker_safe_string_data (s : String) :
    (docker_safe_string s).data = s.data.map sanitizeChar := by
  simpa [docker_safe_string] using replaceRuns_eq_map s.data []

theorem toNat_ofNat_valid (n : Nat) (h : n < 55296) : (Char.ofNat n).toNat = n := by
  rw [Char.ofNat, dif_pos (Or.inl h)]
  rfl

theorem allowedChar_badMap (c : Char) : allowedChar (badMap c) = true := by
  unfold badMap
  by_cases h : (65 ≤ c.toNat && c.toNat ≤ 90) = true
  · simp only [h, if_true]
    simp only [Bool.and_eq_true, decide_eq_true_eq] at h
    have hv : c.toNat + 32 < 55296 := by omega
    simp [allowedChar, toNat_ofNat_valid _ hv]
    omega
  · simp only [Bool.not_eq_true] at h
    simp [h]
    decide

theorem allowedChar_sanitizeChar (c : Char) : allowedChar (sanitizeChar c) = true := by
  unfold sanitizeChar
  by_cases h : allowedChar c
  · simp [h]
  · simp only [Bool.not_eq_true] at h
    simp [h, allowedChar_badMap]

theorem sanitizeChar_of_allowed (c : Char) (h : allowedChar c = true) :
    sanitizeChar c = c := by
  simp [sanitizeChar, h]

theorem map_sanitizeChar_of_allowed :
    ∀ l : List Char, (∀ c ∈ l, allowedChar c = true) → l.map sanitizeChar = l := by
  intro l h
  induction l with
  | nil => rfl
  | cons c cs ih =>
    simp only [List.map_cons]
    rw [sanitizeChar_of_allowed c (h c (List.mem_cons_self c cs)),
      ih (fun d hd => h d (List.mem_cons_of_mem c hd))]

/-! ## SHA-256 (the sha2 crate's Sha256, FIPS 180-4), over byte lists -/

/-- Reduce to a 32-bit word, the wrap-around of u32 arithmetic. -/
def w32 (x : Nat) : Nat := x % 4294967296

/-- Right-rotation of a 32-bit word. For x < 2 ^ 32 the two summands
occupy disjoint bit ranges, so the sum is the usual or-of-shifts. -/
def rotr (n x : Nat) : Nat := w32 (x / 2 ^ n + x * 2 ^ (32 - n))

/-- The 64 SHA-256 round constants. -/
def K : List Nat :=
  [1116352408, 1899447441, 3049323471, 3921009573,
   961987163, 1508970993, 2453635748, 2870763221,
   3624381080, 310598401, 607225278, 1426881987,
   1925078388, 2162078206, 2614888103, 3248222580,
   3835390401, 4022224774, 264347078, 604807628,
   770255983, 1249150122, 1555081692, 1996064986,
   2554220882, 2821834349, 2952996808, 3210313671,
   3336571891, 3584528711, 113926993, 338241895,
   666307205, 773529912, 1294757372, 1396182291,
   1695183700, 1986661051, 2177026350, 2456956037,
   2730485921, 2820302411, 3259730800, 3345764771,
   3516065817, 3600352804, 4094571909, 275423344,
   430227734, 506948616, 659060556, 883997877,
   958139571, 1322822218, 1537002063, 1747873779,
   1955562222, 2024104815, 2227730452, 2361852424,
   2428436474, 2756734187, 3204031479, 3329325298]

/-- The eight working variables of the compression function. -/
structure H8 where
  a : Nat
  b : Nat
  c : Nat
  d : Nat
  e : Nat
  f : Nat
  g : Nat
  h : Nat
  deriving DecidableEq

/-- Choice function: bits of f where e is set, of g elsewhere
(the complement of e within 32 bits is 4294967295 - e). -/
def chf (e f g : Nat) : Nat := (e &&& f) ^^^ ((4294967295 - e) &&& g)

/-- Majority function. -/
def maj (a b c : Nat) : Nat := (a &&& b) ^^^ (a &&& c) ^^^ (b &&& c)

def bigS0 (x : Nat) : Nat := rotr 2 x ^^^ rotr 13 x ^^^ rotr 22 x

def bigS1 (x : Nat) : Nat := rotr 6 x ^^^ rotr 11 x ^^^ rotr 25 x

def smallS0 (x : Nat) : Nat := rotr 7 x ^^^ rotr 18 x ^^^ x / 2 ^ 3

def smallS1 (x : Nat) : Nat := rotr 17 x ^^^ rotr 19 x ^^^ x / 2 ^ 10

/-- One round of the compression function, consuming one (constant, word)
pair. -/
def step (s : H8) (kw : Nat × Nat) : H8 :=
  let t1 := w32 (s.h + bigS1 s.e + chf s.e s.f s.g + kw.1 + kw.2)
  let t2 := w32 (bigS0 s.a + maj s.a s.b s.c)
  ⟨w32 (t1 + t2), s.a, s.b, s.c, w32 (s.d + t1), s.e, s.f, s.g⟩

/-- The 64 rounds, folded over the zipped constants and schedule. -/
def rounds : List (Nat × Nat) → H8 → H8
  | [], s => s
  | kw :: rest, s => rounds rest (step s kw)

/-- Big-endian 4-byte groups to 32-bit words. -/
def toWords : List Nat → List Nat
  | b0 :: b1 :: b2 :: b3 :: rest => (((b0 * 256 + b1) * 256 + b2) * 256 + b3) :: toWords rest
  | _ => []

/-- Message-schedule extension; the accumulator holds the schedule so far in
reverse, so positions 1, 6, 14, 15 are w[i-2], w[i-7], w[i-15], w[i-16]. -/
def extendLoop : Nat → List Nat → List Nat
  | 0, acc => acc
  | n + 1, acc =>
    extendLoop n
      (w32 (acc.getD 15 0 + smallS0 (acc.getD 14 0) + acc.getD 6 0 + smallS1 (acc.getD 1 0)) :: acc)

/-- The 64-word message schedule of one 64-byte chunk. -/
def msgSchedule (chunk : List Nat) : List Nat :=
  (extendLoop 48 (toWords chunk).reverse).reverse

/-- Compress one 64-byte chunk into the running hash state. -/
def compress (s : H8) (chunk : List Nat) : H8 :=
  let t := rounds (K.zip (msgSchedule chunk)) s
  ⟨w32 (s.a + t.a), w32 (s.b + t.b), w32 (s.c + t.c), w32 (s.d + t.d),
   w32 (s.e + t.e), w32 (s.f + t.f), w32 (s.g + t.g), w32 (s.h + t.h)⟩

/-- The SHA-256 initial hash value. -/
def initH : H8 :=
  ⟨1779033703, 3144134277, 1013904242, 2773480762, 1359893119, 2600822924, 528734635, 1541459225⟩

/-- Fold `compress` over the 64-byte chunks of the padded message. The fuel
is the list length, which always suffices since each iteration drops 64
bytes of a nonempty list. -/
def chunksLoop : Nat → H8 → List Nat → H8
  | 0, s, _ => s
  | _, s, [] => s
  | fuel + 1, s, l => chunksLoop fuel (compress s (l.take 64)) (l.drop 64)

/-- SHA-256 padding: 0x80, zeros to 56 mod 64, then the bit length as 8
big-endian bytes. -/
def padMsg (msg : List Nat) : List Nat :=
  let L := msg.length
  let k := (119 - L % 64) % 64
  let bitLen := L * 8
  msg ++ 128 :: List.replicate k 0 ++
    [bitLen / 2 ^ 56 % 256, bitLen / 2 ^ 48 % 256, bitLen / 2 ^ 40 % 256, bitLen / 2 ^ 32 % 256,
     bitLen / 2 ^ 24 % 256, bitLen / 2 ^ 16 % 256, bitLen / 2 ^ 8 % 256, bitLen % 256]

/-- A 32-bit word as 4 big-endian bytes. -/
def wordBytes (w : Nat) : List Nat := [w / 16777216 % 256, w / 65536 % 256, w / 256 % 256, w % 256]

/-- The SHA-256 digest of a byte sequence, as its 32 bytes. This models the
`sha2::Sha256` computation that `Seavan::hash` streams the wrapped file
through (`io::copy(&mut file, &mut hasher)` followed by `finalize()`). -/
def sha256 (msg : List Nat) : List Nat :=
  let p := padMsg msg
  let s := chunksLoop p.length initH p
  wordBytes s.a ++ wordBytes s.b ++ wordBytes s.c ++ wordBytes s.d ++
    wordBytes s.e ++ wordBytes s.f ++ wordBytes s.g ++ wordBytes s.h

/-! ## Lowercase hex formatting, the `format!("{:x}", hash)` of Seavan::hash -/

/-- The lowercase hexadecimal digits. -/
def hexChars : List Char := "0123456789abcdef".data

/-- A nibble as a lowercase hexadecimal digit (only values below 16 arise). -/
def hexDigit (n : Nat) : Char := hexChars.getD n '0'

/-- Two lowercase hex digits per byte, high nibble first. -/
def hexPairs : List Nat → List Char
  | [] => []
  | b :: rest => hexDigit (b / 16) :: hexDigit (b % 16) :: hexPairs rest

/-- `format!("{:x}", hash)` on a sha2 digest: each of the 32 bytes printed
as two lowercase hex digits, preserving leading zeros. -/
def hexOfBytes (l : List Nat) : String := ⟨hexPairs l⟩

/-! ## Hex and digest lemmas -/

theorem hexDigit_mem (n : Nat) : hexDigit n ∈ hexChars := by
  unfold hexDigit
  by_cases h : n < hexChars.length
  · rw [List.getD_eq_getElem?_getD, List.getElem?_eq_getElem h]
    exact List.getElem_mem h
  · rw [List.getD_eq_getElem?_getD, List.getElem?_eq_none (by omega)]
    decide

theorem hexPairs_length (l : List Nat) : (hexPairs l).length = 2 * l.length := by
  induction l with
  | nil => rfl
  | cons b rest ih => simp [hexPairs, ih]; omega

theorem hexPairs_mem (l : List Nat) : ∀ c ∈ hexPairs l, c ∈ hexChars := by
  induction l with
  | nil => intro c hc; cases hc
  | cons b rest ih =>
    intro c hc
    rcases hc with _ | ⟨_, hc⟩
    · exact hexDigit_mem _
    · rcases hc with _ | ⟨_, hc⟩
      · exact hexDigit_mem _
      · exact ih c hc

theorem sha256_length (msg : List Nat) : (sha256 msg).length = 32 := by
  simp [sha256, wordBytes]

theorem hexOfBytes_sha256_length (msg : List Nat) :
    (hexOfBytes (sha256 msg)).length = 64 := by
  show (hexPairs (sha256 msg)).length = 64
  rw [hexPairs_length, sha256_length]

theorem hexOfBytes_sha256_mem (msg : List Nat) :
    ∀ c ∈ (hexOfBytes (sha256 msg)).data, c ∈ hexChars := by
  exact hexPairs_mem (sha256 msg)

/-! ## The path model -/

/-- The result of the one `OsStr`-to-`str` conversion the code performs:
either the component is valid UTF-8 (`to_str()` returns `Some`) or it is
not (`to_str()` returns `None`). -/
inductive OsStr where
  | valid (s : String)
  | invalid
  deriving DecidableEq

/-- The canonical `PathBuf` a `Seavan` stores, represented by the results
of the only accessors the code applies to it: `file_name()` (absent for a
root, otherwise a possibly-non-UTF-8 component), `parent()` (whether a
parent directory exists), and the bytes `File::open` + `io::copy` would
stream out of the file it denotes. -/
structure SPath where
  fileName : Option OsStr
  hasParent : Bool
  contents : List Nat
  deriving DecidableEq

/-! ## src/error.rs : SeavanError -/

/-- `SeavanError` from src/error.rs. The variant `BannedRegistry` is
modelled from the spec: src/lib.rs constructs and matches on
`SeavanError::BannedRegistryPrefix` ("fails with a BannedRegistryPrefix
class error if the registry starts with the reserved public-registry host
literal"), but the declaration of that variant is absent from the
src/error.rs snapshot; all other variants are as declared there. -/
inductive SeavanError where
  | NoFileName (p : SPath)
  | NoDirectory (p : SPath)
  | FailedStrConversion
  | DockerBuildFailure (s : String)
  | IoError
  | RegexError
  | BannedRegistry
  deriving DecidableEq

/-! ## src/lib.rs : the Seavan descriptor and its operations -/

/-- `PACKAGE_ROOT` from src/lib.rs: constant namespacing segment of every
generated image name. -/
def PACKAGE_ROOT : String := "seavanpkg"

/-- `DEFAULT_TAG` from src/lib.rs. -/
def DEFAULT_TAG : String := "latest"

/-- The `Seavan` struct from src/lib.rs. -/
structure Seavan where
  registry : Option String
  path : SPath
  tag : String
  deriving DecidableEq

/-- Decidable equality for `Except` results, so that witnesses can be
checked by evaluation. -/
instance (priority := low) {e a : Type} [DecidableEq e] [DecidableEq a] :
    DecidableEq (Except e a) := fun x y =>
  match x, y with
  | .ok v, .ok w =>
    match decEq v w with
    | isTrue h => isTrue (by rw [h])
    | isFalse h => isFalse (by intro hc; cases hc; exact h rfl)
  | .error v, .error w =>
    match decEq v w with
    | isTrue h => isTrue (by rw [h])
    | isFalse h => isFalse (by intro hc; cases hc; exact h rfl)
  | .ok _, .error _ => isFalse (by intro hc; cases hc)
  | .error _, .ok _ => isFalse (by intro hc; cases hc)

/-- `Seavan::new`. The Rust function canonicalizes the argument (an
effectful filesystem step whose failures are I/O errors outside this
model; `path` here is already the canonical result) and stores it with the
default tag and no registry. It performs no other checks. -/
def Seavan.new (path : SPath) : Seavan :=
  { path := path, tag := DEFAULT_TAG, registry := none }

/-- `Seavan::with_tag`: stores the docker-safe version of the tag. The
Rust `Result` is only for the impossible regex-compilation failure inside
docker_safe_string, so the embedding always succeeds. -/
def Seavan.with_tag (s : Seavan) (tag : String) : Except SeavanError Seavan :=
  .ok { s with tag := docker_safe_string tag }

/-- `str::starts_with`: the pattern is a prefix of the string. Rust checks
byte prefixes; for the ASCII pattern this code uses, a byte prefix is the
same as a character prefix. -/
def starts_with (s pat : String) : Bool := pat.data.isPrefixOf s.data

/-- `Seavan::with_registry`: rejects registries starting with the literal
"docker.io", otherwise stores the registry string unchanged. -/
def Seavan.with_registry (s : Seavan) (registry : String) : Except SeavanError Seavan :=
  if starts_with registry "docker.io" then .error .BannedRegistry
  else .ok { s with registry := some registry }

/-- `Seavan::filename_str`: the UTF-8 basename of the stored path, failing
with `NoFileName` when `file_name()` is absent and `FailedStrConversion`
when the component is not valid UTF-8. -/
def Seavan.filename_str (s : Seavan) : Except SeavanError String :=
  match s.path.fileName with
  | none => .error (.NoFileName s.path)
  | some .invalid => .error .FailedStrConversion
  | some (.valid f) => .ok f

/-- `Seavan::working_directory`: the parent of the stored path, failing
with `NoDirectory` when there is none. The model keeps only the presence
of the parent, which is all later steps inspect. -/
def Seavan.working_directory (s : Seavan) : Except SeavanError Unit :=
  if s.path.hasParent then .ok () else .error (.NoDirectory s.path)

/-- `Seavan::hash`: streams the file's bytes through `sha2::Sha256` and
formats the digest with `format!("{:x}", hash)`. Opening and reading the
file are filesystem effects outside the model (their failures are
`IoError`); the bytes themselves are `s.path.contents`. -/
def Seavan.hash (s : Seavan) : Except SeavanError String :=
  .ok (hexOfBytes (sha256 s.path.contents))

/-- The `registryroot` computed at the top of
`Seavan::repository_name_and_tag`: `format!("{}/{}", registry, PACKAGE_ROOT)`
when a registry is set, `PACKAGE_ROOT` alone otherwise. -/
def registryRoot (o : Option String) : String :=
  match o with
  | some registry => registry ++ "/" ++ PACKAGE_ROOT
  | none => PACKAGE_ROOT

/-- `Seavan::repository_name_and_tag`: computes
`[registry/]seavanpkg/<hex digest>--<sanitized filename>:<tag>`. -/
def Seavan.repository_name_and_tag (s : Seavan) : Except SeavanError String :=
  let registryroot := registryRoot s.registry
  match s.filename_str with
  | .error e => .error e
  | .ok fname =>
    let safe_filename := docker_safe_string fname
    match s.hash with
    | .error e => .error e
    | .ok h => .ok (registryroot ++ "/" ++ h ++ "--" ++ safe_filename ++ ":" ++ s.tag)

/-- The two-line Dockerfile `create_image` writes to its temporary file:
`write!(tempdocker, "FROM scratch\nCOPY {} /\n", self.filename_str()?)`. -/
def dockerfileContents (filename : String) : String :=
  "FROM scratch\nCOPY " ++ filename ++ " /\n"

/-- What `Command::output()` hands back from the docker build subprocess:
the exit status reduced to `status.success()`, and the captured stdout and
stderr byte streams. -/
structure EngineOutput where
  success : Bool
  stdout : List Nat
  stderr : List Nat
  deriving DecidableEq

/-- Is a byte a UTF-8 continuation byte (0x80..=0xBF)? -/
def contB (b : Nat) : Bool := 128 ≤ b && b ≤ 191

/-- Strict UTF-8 decoding of a byte list, the validation performed by
`String::from_utf8`: rejects overlong encodings, surrogate code points and
values above 0x10FFFF, following the standard leading-byte/second-byte
ranges. -/
def decodeUtf8Chars : List Nat → Option (List Char)
  | [] => some []
  | b :: rest =>
    if b ≤ 127 then
      (decodeUtf8Chars rest).map (fun cs => Char.ofNat b :: cs)
    else if b ≤ 193 then none
    else if b ≤ 223 then
      match rest with
      | b1 :: rest1 =>
        if contB b1 then
          (decodeUtf8Chars rest1).map (fun cs => Char.ofNat ((b - 192) * 64 + (b1 - 128)) :: cs)
        else none
      | [] => none
    else if b ≤ 239 then
      match rest with
      | b1 :: b2 :: rest2 =>
        if (if b == 224 then 160 ≤ b1 && b1 ≤ 191
            else if b == 237 then 128 ≤ b1 && b1 ≤ 159
            else contB b1) && contB b2 then
          (decodeUtf8Chars rest2).map
            (fun cs => Char.ofNat (((b - 224) * 4096 + (b1 - 128) * 64 + (b2 - 128))) :: cs)
        else none
      | _ => none
    else if b ≤ 244 then
      match rest with
      | b1 :: b2 :: b3 :: rest3 =>
        if (if b == 240 then 144 ≤ b1 && b1 ≤ 191
            else if b == 244 then 128 ≤ b1 && b1 ≤ 143
            else contB b1) && contB b2 && contB b3 then
          (decodeUtf8Chars rest3).map
            (fun cs =>
              Char.ofNat ((b - 240) * 262144 + (b1 - 128) * 4096 + (b2 - 128) * 64 + (b3 - 128)) :: cs)
        else none
      | _ => none
    else none

/-- `String::from_utf8` on a byte buffer: `some` of the decoded string
when the bytes are valid UTF-8, `none` otherwise. -/
def string_from_utf8 (l : List Nat) : Option String :=
  (decodeUtf8Chars l).map (fun cs => ⟨cs⟩)

/-- `Seavan::create_image`, given the outcome of the docker subprocess.
Follows the order of src/lib.rs: write the Dockerfile to the temporary
file (the first fallible step that can reject the descriptor, through
`filename_str`), compute the repository name and tag, resolve the working
directory for the subprocess, then interpret the exit status: success
returns the name, failure returns `DockerBuildFailure` carrying the
decoded stderr, or the placeholder when stderr is not valid UTF-8
(`String::from_utf8(..).unwrap_or_else(|_| "No Docker stderr")`).
Temp-file creation and subprocess spawning are I/O effects outside the
model. -/
def Seavan.create_image (s : Seavan) (output : EngineOutput) : Except SeavanError String :=
  match s.filename_str with
  | .error e => .error e
  | .ok fname =>
    let _dockerfile := dockerfileContents fname
    match s.repository_name_and_tag with
    | .error e => .error e
    | .ok repository_name_and_tag =>
      match s.working_directory with
      | .error e => .error e
      | .ok _ =>
        match output.success with
        | true => .ok repository_name_and_tag
        | false =>
          .error (.DockerBuildFailure ((string_from_utf8 output.stderr).getD "No Docker stderr"))

/-! ## Line structure of the generated Dockerfile -/

/-- Split a character list at every newline; a trailing newline yields a
final empty segment, so a text of exactly two newline-terminated lines
splits into those two lines followed by the empty remainder. -/
def splitLines : List Char → List (List Char)
  | [] => [[]]
  | c :: rest =>
    if c = '\n' then [] :: splitLines rest
    else
      match splitLines rest with
      | [] => [[c]]
      | l :: ls => (c :: l) :: ls

theorem splitLines_append (a b : List Char) (h : ∀ c ∈ a, c ≠ '\n') :
    splitLines (a ++ '\n' :: b) = a :: splitLines b := by
  induction a with
  | nil => simp [splitLines]
  | cons c cs ih =>
    have hc : c ≠ '\n' := h c (List.mem_cons_self c cs)
    have hcs : ∀ d ∈ cs, d ≠ '\n' := fun d hd => h d (List.mem_cons_of_mem c hd)
    simp only [List.cons_append, splitLines, if_neg hc]
    rw [show cs.append ('\n' :: b) = cs ++ '\n' :: b from rfl, ih hcs]

/-! ## The sanitizer the spec describes: one replacement per disallowed run -/

/-- Modelled from the spec: the NameSanitizer algorithm as §4.1 words it,
"any uppercase ASCII letter is folded to lowercase; any maximal run of
characters outside the allowed set is collapsed into a single replacement
character". The flag records whether the previous character was part of a
collapsed run, so each further non-uppercase disallowed character of the
same run emits nothing. This definition exists only to compare the spec's
wording against docker_safe_string. -/
def collapseAux : Bool → List Char → List Char
  | _, [] => []
  | inRun, c :: cs =>
    if allowedChar c then c :: collapseAux false cs
    else if 65 ≤ c.toNat && c.toNat ≤ 90 then Char.ofNat (c.toNat + 32) :: collapseAux false cs
    else if inRun then collapseAux true cs
    else '-' :: collapseAux true cs

/-- Modelled from the spec: the run-collapsing sanitizer of §4.1, as a
whole-string function. -/
def spec_collapse_sanitizer (s : String) : String := ⟨collapseAux false s.data⟩

/-! ## Builder-call sequences, for the tag invariant -/

/-- One configuration call on a descriptor: a `with_tag` or a
`with_registry` invocation. -/
inductive ConfigOp where
  | tagOp (t : String)
  | regOp (r : String)
  deriving DecidableEq

/-- Apply one configuration call. -/
def applyOp (s : Seavan) : ConfigOp → Except SeavanError Seavan
  | .tagOp t => s.with_tag t
  | .regOp r => s.with_registry r

/-- Apply a sequence of configuration calls left to right, stopping at the
first failure as the `?` operator does. -/
def applyOps : Seavan → List ConfigOp → Except SeavanError Seavan
  | s, [] => .ok s
  | s, op :: rest =>
    match applyOp s op with
    | .ok s2 => applyOps s2 rest
    | .error e => .error e

/-- The tag alphabet invariant: every character of the stored tag is in
the allowed class. -/
def tagOk (s : Seavan) : Prop := ∀ c ∈ s.tag.data, allowedChar c = true

theorem tagOk_with_tag (s : Seavan) (t : String) (s2 : Seavan)
    (h : s.with_tag t = .ok s2) : tagOk s2 := by
  cases h
  intro c hc
  rw [docker_safe_string_data] at hc
  rcases List.mem_map.mp hc with ⟨d, _, rfl⟩
  exact allowedChar_sanitizeChar d

theorem tagOk_applyOps (s : Seavan) (ops : List ConfigOp) (s2 : Seavan)
    (hs : tagOk s) (h : applyOps s ops = .ok s2) : tagOk s2 := by
  induction ops generalizing s with
  | nil => cases h; exact hs
  | cons op rest ih =>
    cases op with
    | tagOp t =>
      simp only [applyOps, applyOp, Seavan.with_tag] at h
      exact ih _ (tagOk_with_tag s t _ rfl) h
    | regOp r =>
      simp only [applyOps, applyOp, Seavan.with_registry] at h
      by_cases hr : starts_with r "docker.io"
      · rw [if_pos hr] at h; cases h
      · rw [if_neg hr] at h
        exact ih ⟨some r, s.path, s.tag⟩ hs h

/-! ## Shared concrete inputs for the witnesses -/

/-- A canonical path with UTF-8 basename "Cargo.toml", a parent directory,
and empty file contents. -/
def sampleSPath : SPath := ⟨some (.valid "Cargo.toml"), true, []⟩

/-- A configured descriptor wrapping `sampleSPath`. -/
def sampleSeavan : Seavan := ⟨some "example.com", sampleSPath, "latest"⟩

/-- What canonicalizing a filesystem root yields: no final path component
and no parent. -/
def rootPath : SPath := ⟨none, false, []⟩

/-- The bytes of the ASCII text "no space left on device". -/
def noSpaceBytes : List Nat :=
  [110, 111, 32, 115, 112, 97, 99, 101, 32, 108, 101, 102, 116, 32, 111, 110,
   32, 100, 101, 118, 105, 99, 101]

/-! ## Claims about the sanitizer: C2, C3, C8 -/

/-- C2, counterexample: the claim says a maximal run of disallowed
characters is collapsed into a single `-` (one per run). On the input
"a!!b", whose single disallowed run is "!!", the code produces "a--b"
(one `-` per character), not the "a-b" the spec-worded run-collapsing
sanitizer produces. -/
theorem C2_counterexample :
    docker_safe_string "a!!b" = "a--b" ∧
    spec_collapse_sanitizer "a!!b" = "a-b" ∧
    docker_safe_string "a!!b" ≠ spec_collapse_sanitizer "a!!b" := by
  refine ⟨by decide, by decide, by decide⟩

/-- C2 (amended): the sanitizer replaces each character outside
`[a-z0-9-_]` individually — an ASCII uppercase letter folds to lowercase,
any other disallowed character becomes `-` — so a run of k non-uppercase
disallowed characters yields k hyphens, with classification evaluated on
the original characters. -/
theorem C2_per_char_replacement (s : String) :
    (docker_safe_string s).data = s.data.map (fun c =>
      if allowedChar c then c
      else if 65 ≤ c.toNat && c.toNat ≤ 90 then Char.ofNat (c.toNat + 32) else '-') := by
  rw [docker_safe_string_data]
  rfl

/-- C3: every character of the sanitizer's output is in `[a-z0-9-_]`, and
an input of only lowercase ASCII alphanumerics is returned unchanged. -/
theorem C3_output_alphabet (s : String) :
    (∀ c ∈ (docker_safe_string s).data, allowedChar c = true) ∧
    ((∀ c ∈ s.data,
        ((97 ≤ c.toNat && c.toNat ≤ 122) || (48 ≤ c.toNat && c.toNat ≤ 57)) = true) →
      docker_safe_string s = s) := by
  constructor
  · intro c hc
    rw [docker_safe_string_data] at hc
    rcases List.mem_map.mp hc with ⟨d, _, rfl⟩
    exact allowedChar_sanitizeChar d
  · intro h
    apply String.ext
    rw [docker_safe_string_data]
    apply map_sanitizeChar_of_allowed
    intro c hc
    have hc2 := h c hc
    simp only [Bool.or_eq_true, Bool.and_eq_true, decide_eq_true_eq] at hc2
    simp only [allowedChar, Bool.or_eq_true, Bool.and_eq_true, decide_eq_true_eq]
    tauto

theorem C3_output_alphabet_witness :
    (∀ c ∈ ("abc123" : String).data,
        ((97 ≤ c.toNat && c.toNat ≤ 122) || (48 ≤ c.toNat && c.toNat ≤ 57)) = true) ∧
    (∀ c ∈ (docker_safe_string "abc123").data, allowedChar c = true) ∧
    docker_safe_string "abc123" = "abc123" :=
  ⟨by decide, (C3_output_alphabet "abc123").1, (C3_output_alphabet "abc123").2 (by decide)⟩

/-- C8: sanitizing twice equals sanitizing once. -/
theorem C8_idempotent (s : String) :
    docker_safe_string (docker_safe_string s) = docker_safe_string s := by
  apply String.ext
  rw [docker_safe_string_data]
  apply map_sanitizeChar_of_allowed
  intro c hc
  rw [docker_safe_string_data] at hc
  rcases List.mem_map.mp hc with ⟨d, _, rfl⟩
  exact allowedChar_sanitizeChar d

/-! ## Which errors each pipeline stage can produce -/

theorem filename_str_error_source (s : Seavan) (e : SeavanError)
    (h : s.filename_str = .error e) :
    e = .NoFileName s.path ∨ e = .FailedStrConversion := by
  unfold Seavan.filename_str at h
  rcases hfn : s.path.fileName with _ | os
  · rw [hfn] at h
    cases h
    left
    rfl
  · cases os with
    | valid f => rw [hfn] at h; cases h
    | invalid =>
      rw [hfn] at h
      cases h
      right
      rfl

theorem rnt_error_source (s : Seavan) (e : SeavanError)
    (h : s.repository_name_and_tag = .error e) :
    e = .NoFileName s.path ∨ e = .FailedStrConversion := by
  unfold Seavan.repository_name_and_tag at h
  cases hfs : s.filename_str with
  | error e2 =>
    rw [hfs] at h
    cases h
    exact filename_str_error_source s _ hfs
  | ok f =>
    rw [hfs] at h
    simp [Seavan.hash] at h

theorem create_image_error_source (s : Seavan) (out : EngineOutput) (e : SeavanError)
    (h : s.create_image out = .error e) :
    e = .NoFileName s.path ∨ e = .FailedStrConversion ∨ e = .NoDirectory s.path ∨
      ∃ t, e = .DockerBuildFailure t := by
  unfold Seavan.create_image at h
  cases hfs : s.filename_str with
  | error e2 =>
    rw [hfs] at h
    cases h
    rcases filename_str_error_source s _ hfs with h1 | h1
    · exact Or.inl h1
    · exact Or.inr (Or.inl h1)
  | ok f =>
    rw [hfs] at h
    cases hrnt : s.repository_name_and_tag with
    | error e3 =>
      rw [hrnt] at h
      cases h
      rcases rnt_error_source s _ hrnt with h1 | h1
      · exact Or.inl h1
      · exact Or.inr (Or.inl h1)
    | ok name =>
      rw [hrnt] at h
      by_cases hp : s.path.hasParent
      · simp only [Seavan.working_directory, hp, if_true] at h
        cases hsuc : out.success with
        | true => rw [hsuc] at h; cases h
        | false =>
          rw [hsuc] at h
          cases h
          exact Or.inr (Or.inr (Or.inr ⟨_, rfl⟩))
      · simp only [Seavan.working_directory, hp, if_false, Bool.false_eq_true] at h
        cases h
        exact Or.inr (Or.inr (Or.inl rfl))

/-! ## C1: the generated repository name and tag -/

/-- C1: for a descriptor whose path has a UTF-8 basename, the generated
identifier is `[registry/]seavanpkg/<digest>--<sanitized filename>:<tag>`
where the digest is the 64-character lowercase-hex SHA-256 of the wrapped
file's bytes, the registry segment is present exactly when a registry was
set, and the tag is the stored tag. -/
theorem C1_repository_name (s : Seavan) (f : String)
    (h : s.path.fileName = some (OsStr.valid f)) :
    s.repository_name_and_tag =
      .ok (registryRoot s.registry ++ "/" ++ hexOfBytes (sha256 s.path.contents) ++ "--" ++
        docker_safe_string f ++ ":" ++ s.tag) ∧
    registryRoot s.registry =
      (match s.registry with
       | some registry => registry ++ "/"
       | none => "") ++ PACKAGE_ROOT ∧
    (hexOfBytes (sha256 s.path.contents)).length = 64 ∧
    ∀ c ∈ (hexOfBytes (sha256 s.path.contents)).data, c ∈ hexChars := by
  refine ⟨?_, ?_, hexOfBytes_sha256_length _, hexOfBytes_sha256_mem _⟩
  · simp [Seavan.repository_name_and_tag, Seavan.filename_str, h, Seavan.hash]
  · cases s.registry with
    | none => decide
    | some r => rfl

set_option maxRecDepth 40000 in
theorem C1_repository_name_witness :
    sampleSeavan.path.fileName = some (OsStr.valid "Cargo.toml") ∧
    sampleSeavan.repository_name_and_tag =
      .ok "example.com/seavanpkg/e3b0c44298fc1c149afbf4c8996fb92427ae41e4649b934ca495991b7852b855--cargo-toml:latest" :=
  ⟨rfl, by
    rw [(C1_repository_name sampleSeavan "Cargo.toml" rfl).1]
    exact congrArg Except.ok (by decide)⟩

/-! ## C5: the synthesized build manifest -/

/-- C5: the manifest written to the build subprocess is the text
"FROM scratch\nCOPY <basename> /\n" for the literal unsanitized basename;
when the basename contains no newline this is exactly the two
newline-terminated lines "FROM scratch" and "COPY <basename> /". -/
theorem C5_manifest (s : Seavan) (f : String)
    (h : s.path.fileName = some (OsStr.valid f)) :
    s.filename_str = .ok f ∧
    dockerfileContents f = "FROM scratch" ++ "\n" ++ ("COPY " ++ f ++ " /") ++ "\n" ∧
    ((∀ c ∈ f.data, c ≠ '\n') →
      splitLines (dockerfileContents f).data =
        ["FROM scratch".data, ("COPY " ++ f ++ " /").data, []]) := by
  have hdata : (dockerfileContents f).data =
      "FROM scratch".data ++ '\n' ::
        (("COPY ".data ++ f.data ++ " /".data) ++ '\n' :: []) := by
    show ("FROM scratch\nCOPY " ++ f ++ " /\n").data = _
    rw [String.data_append, String.data_append]
    rw [show "FROM scratch\nCOPY ".data = "FROM scratch".data ++ '\n' :: "COPY ".data by decide]
    rw [show " /\n".data = " /".data ++ '\n' :: [] by decide]
    simp [List.append_assoc]
  refine ⟨by simp [Seavan.filename_str, h], ?_, ?_⟩
  · apply String.ext
    rw [hdata]
    simp [String.data_append, List.append_assoc]
  · intro hf
    rw [hdata]
    rw [splitLines_append _ _ (by decide)]
    rw [splitLines_append _ _ ?nonl]
    case nonl =>
      intro c hc
      rcases List.mem_append.mp hc with hc2 | hc2
      · rcases List.mem_append.mp hc2 with hc3 | hc3
        · exact (by decide : ∀ d ∈ "COPY ".data, d ≠ '\n') c hc3
        · exact hf c hc3
      · exact (by decide : ∀ d ∈ " /".data, d ≠ '\n') c hc2
    rw [show splitLines [] = [[]] from rfl]
    rw [show ("COPY " ++ f ++ " /").data = "COPY ".data ++ f.data ++ " /".data by
      simp [String.data_append]]

theorem C5_manifest_witness :
    sampleSeavan.path.fileName = some (OsStr.valid "Cargo.toml") ∧
    (∀ c ∈ ("Cargo.toml" : String).data, c ≠ '\n') ∧
    dockerfileContents "Cargo.toml" = "FROM scratch\nCOPY Cargo.toml /\n" ∧
    splitLines (dockerfileContents "Cargo.toml").data =
      ["FROM scratch".data, "COPY Cargo.toml /".data, []] :=
  ⟨rfl, by decide, by decide, by
    rw [(C5_manifest sampleSeavan "Cargo.toml" rfl).2.2 (by decide)]
    decide⟩

/-! ## C6: the banned registry check happens at configuration time -/

/-- C6: with_registry fails with the banned-registry error exactly when
the registry string starts with the literal "docker.io", stores the
registry otherwise, and that error can never arise later: neither name
computation nor the build step ever produces it. -/
theorem C6_registry_rejection (s : Seavan) (r : String) :
    (s.with_registry r = .error .BannedRegistry ↔ starts_with r "docker.io" = true) ∧
    (starts_with r "docker.io" = false →
      s.with_registry r = .ok { s with registry := some r }) ∧
    s.repository_name_and_tag ≠ .error .BannedRegistry ∧
    (∀ out, s.create_image out ≠ .error .BannedRegistry) := by
  refine ⟨⟨?_, ?_⟩, ?_, ?_, ?_⟩
  · intro h
    by_cases hr : starts_with r "docker.io"
    · exact hr
    · simp [Seavan.with_registry, hr] at h
  · intro hr
    simp [Seavan.with_registry, hr]
  · intro hr
    simp [Seavan.with_registry, hr]
  · intro h
    rcases rnt_error_source s _ h with h1 | h1 <;> exact SeavanError.noConfusion h1
  · intro out h
    rcases create_image_error_source s out _ h with h1 | h1 | h1 | ⟨t, h1⟩ <;>
      exact SeavanError.noConfusion h1

theorem C6_registry_rejection_witness :
    (starts_with "docker.io/library" "docker.io" = true) ∧
    (starts_with "example.com" "docker.io" = false) ∧
    sampleSeavan.with_registry "docker.io/library" = .error .BannedRegistry ∧
    sampleSeavan.with_registry "example.com" =
      .ok { sampleSeavan with registry := some "example.com" } ∧
    (∀ out, sampleSeavan.create_image out ≠ .error .BannedRegistry) :=
  ⟨by decide, by decide,
    (C6_registry_rejection sampleSeavan "docker.io/library").1.mpr (by decide),
    (C6_registry_rejection sampleSeavan "example.com").2.1 (by decide),
    (C6_registry_rejection sampleSeavan "example.com").2.2.2⟩

/-! ## C7: where the missing-filename error surfaces -/

/-- C7, counterexample: constructing a descriptor from a path with no
final component succeeds — `Seavan::new` only canonicalizes and stores the
path, checking nothing about it — and the `NoFileName` error first appears
when the basename is asked for. The claim that creation itself fails with
`NoFileName` is therefore false. -/
theorem C7_counterexample :
    Seavan.new rootPath = { registry := none, path := rootPath, tag := "latest" } ∧
    (Seavan.new rootPath).filename_str = .error (.NoFileName rootPath) := by
  exact ⟨rfl, rfl⟩

/-- C7 (amended): `Seavan::new` performs no filename check (it can fail
only through path canonicalization, an I/O effect outside the model); for
a path with no final component the `NoFileName` error surfaces at every
operation that needs the basename: name computation and image creation. -/
theorem C7_no_filename_surfaces_at_use (p : SPath) (h : p.fileName = none) :
    (Seavan.new p).filename_str = .error (.NoFileName p) ∧
    (Seavan.new p).repository_name_and_tag = .error (.NoFileName p) ∧
    ∀ out, (Seavan.new p).create_image out = .error (.NoFileName p) := by
  have hfs : (Seavan.new p).filename_str = .error (.NoFileName p) := by
    simp [Seavan.filename_str, Seavan.new, h]
  have hrnt : (Seavan.new p).repository_name_and_tag = .error (.NoFileName p) := by
    unfold Seavan.repository_name_and_tag
    rw [hfs]
  refine ⟨hfs, hrnt, ?_⟩
  intro out
  unfold Seavan.create_image
  rw [hfs]

theorem C7_no_filename_surfaces_at_use_witness :
    rootPath.fileName = none ∧
    (Seavan.new rootPath).repository_name_and_tag = .error (.NoFileName rootPath) ∧
    (Seavan.new rootPath).create_image ⟨true, [], []⟩ = .error (.NoFileName rootPath) :=
  ⟨rfl, (C7_no_filename_surfaces_at_use rootPath rfl).2.1,
    (C7_no_filename_surfaces_at_use rootPath rfl).2.2 ⟨true, [], []⟩⟩

/-! ## C9: the stored tag stays inside the safe alphabet -/

/-- C9: the default tag is in the alphabet `[a-z0-9-_]`, and after any
sequence of with_tag and with_registry calls on a fresh descriptor that
returns successfully, the stored tag still contains only characters of
that alphabet. -/
theorem C9_tag_invariant :
    (∀ c ∈ DEFAULT_TAG.data, allowedChar c = true) ∧
    ∀ (p : SPath) (ops : List ConfigOp) (s2 : Seavan),
      applyOps (Seavan.new p) ops = .ok s2 → ∀ c ∈ s2.tag.data, allowedChar c = true := by
  refine ⟨by decide, ?_⟩
  intro p ops s2 h
  have hbase : tagOk (Seavan.new p) := by
    intro c hc
    exact (by decide : ∀ d ∈ ("latest" : String).data, allowedChar d = true) c hc
  exact tagOk_applyOps (Seavan.new p) ops s2 hbase h

theorem C9_tag_invariant_witness :
    applyOps (Seavan.new sampleSPath)
        [ConfigOp.tagOp "Some r4ndom t@g with character$", ConfigOp.regOp "example.com"] =
      .ok ⟨some "example.com", sampleSPath, "some-r4ndom-t-g-with-character-"⟩ ∧
    ∀ c ∈ ("some-r4ndom-t-g-with-character-" : String).data, allowedChar c = true :=
  ⟨by decide,
    (C9_tag_invariant).2 sampleSPath
      [ConfigOp.tagOp "Some r4ndom t@g with character$", ConfigOp.regOp "example.com"]
      ⟨some "example.com", sampleSPath, "some-r4ndom-t-g-with-character-"⟩ (by decide)⟩

/-! ## C10: accepted registries are stored verbatim -/

/-- C10: with_registry accepts exactly the strings whose bytes do not
start with "docker.io" — including the empty string and case variants —
stores an accepted registry verbatim with no sanitization or other check,
and the stored string is prepended unchanged, followed by "/", to the
generated repository name. -/
theorem C10_registry_verbatim (s : Seavan) (r : String) :
    (starts_with r "docker.io" = false →
      s.with_registry r = .ok { s with registry := some r }) ∧
    (starts_with r "docker.io" = true → s.with_registry r = .error .BannedRegistry) ∧
    (∀ f, s.registry = some r → s.path.fileName = some (OsStr.valid f) →
      s.repository_name_and_tag =
        .ok (r ++ "/" ++ (PACKAGE_ROOT ++ "/" ++ hexOfBytes (sha256 s.path.contents) ++ "--" ++
          docker_safe_string f ++ ":" ++ s.tag))) := by
  refine ⟨?_, ?_, ?_⟩
  · intro hr
    simp [Seavan.with_registry, hr]
  · intro hr
    simp [Seavan.with_registry, hr]
  · intro f hreg hfn
    simp only [Seavan.repository_name_and_tag, Seavan.filename_str, hfn, Seavan.hash,
      registryRoot, hreg]
    refine congrArg Except.ok (String.ext ?_)
    simp [String.data_append, List.append_assoc]

set_option maxRecDepth 40000 in
theorem C10_registry_verbatim_witness :
    (starts_with "" "docker.io" = false) ∧
    (starts_with "Docker.io" "docker.io" = false) ∧
    (starts_with "docker.iox" "docker.io" = true) ∧
    sampleSeavan.with_registry "" = .ok { sampleSeavan with registry := some "" } ∧
    sampleSeavan.with_registry "Docker.io" =
      .ok { sampleSeavan with registry := some "Docker.io" } ∧
    sampleSeavan.with_registry "docker.iox" = .error .BannedRegistry ∧
    sampleSeavan.repository_name_and_tag =
      .ok ("example.com" ++ "/" ++
        (PACKAGE_ROOT ++ "/" ++ hexOfBytes (sha256 sampleSeavan.path.contents) ++ "--" ++
          docker_safe_string "Cargo.toml" ++ ":" ++ sampleSeavan.tag)) :=
  ⟨by decide, by decide, by decide,
    (C10_registry_verbatim sampleSeavan "").1 (by decide),
    (C10_registry_verbatim sampleSeavan "Docker.io").1 (by decide),
    (C10_registry_verbatim sampleSeavan "docker.iox").2.1 (by decide),
    (C10_registry_verbatim sampleSeavan "example.com").2.2 "Cargo.toml" rfl rfl⟩

/-! ## C4: build outcome interpretation -/

/-- C4: for a buildable descriptor, a zero-exit build returns the computed
repository name and tag; a nonzero exit returns a DockerBuildFailure
carrying the captured stderr decoded verbatim when it is valid UTF-8, and
the fixed placeholder "No Docker stderr" otherwise. -/
theorem C4_build_outcome (s : Seavan) (out : EngineOutput) (f : String)
    (hfn : s.path.fileName = some (OsStr.valid f)) (hp : s.path.hasParent = true) :
    (out.success = true →
      ∃ name, s.repository_name_and_tag = .ok name ∧ s.create_image out = .ok name) ∧
    (out.success = false → ∀ t, string_from_utf8 out.stderr = some t →
      s.create_image out = .error (.DockerBuildFailure t)) ∧
    (out.success = false → string_from_utf8 out.stderr = none →
      s.create_image out = .error (.DockerBuildFailure "No Docker stderr")) := by
  have hfs : s.filename_str = .ok f := by simp [Seavan.filename_str, hfn]
  have hrnt : s.repository_name_and_tag =
      .ok (registryRoot s.registry ++ "/" ++ hexOfBytes (sha256 s.path.contents) ++ "--" ++
        docker_safe_string f ++ ":" ++ s.tag) := by
    simp [Seavan.repository_name_and_tag, hfs, Seavan.hash]
  have hci : s.create_image out =
      match out.success with
      | true => .ok (registryRoot s.registry ++ "/" ++ hexOfBytes (sha256 s.path.contents) ++
          "--" ++ docker_safe_string f ++ ":" ++ s.tag)
      | false =>
        .error (.DockerBuildFailure ((string_from_utf8 out.stderr).getD "No Docker stderr")) := by
    unfold Seavan.create_image
    rw [hfs, hrnt]
    simp [Seavan.working_directory, hp]
  refine ⟨?_, ?_, ?_⟩
  · intro hsuc
    refine ⟨_, hrnt, ?_⟩
    rw [hci, hsuc]
  · intro hsuc t ht
    rw [hci, hsuc, ht]
    rfl
  · intro hsuc ht
    rw [hci, hsuc, ht]
    rfl

set_option maxRecDepth 40000 in
theorem C4_build_outcome_witness :
    sampleSeavan.path.fileName = some (OsStr.valid "Cargo.toml") ∧
    sampleSeavan.path.hasParent = true ∧
    string_from_utf8 noSpaceBytes = some "no space left on device" ∧
    string_from_utf8 [255] = none ∧
    sampleSeavan.create_image ⟨false, [], noSpaceBytes⟩ =
      .error (.DockerBuildFailure "no space left on device") ∧
    sampleSeavan.create_image ⟨false, [], [255]⟩ =
      .error (.DockerBuildFailure "No Docker stderr") ∧
    ∃ name, sampleSeavan.repository_name_and_tag = .ok name ∧
      sampleSeavan.create_image ⟨true, [], []⟩ = .ok name :=
  ⟨rfl, rfl, by decide, by decide,
    (C4_build_outcome sampleSeavan ⟨false, [], noSpaceBytes⟩ "Cargo.toml" rfl rfl).2.1 rfl
      "no space left on device" (by decide),
    (C4_build_outcome sampleSeavan ⟨false, [], [255]⟩ "Cargo.toml" rfl rfl).2.2 rfl (by decide),
    (C4_build_outcome sampleSeavan ⟨true, [], []⟩ "Cargo.toml" rfl rfl).1 rfl⟩
